import Mathlib

/-!
Verification of the Cotizador quoting/invoicing document builder.

Shallow embedding of the pricing engine, payment-plan calculator, folio
generator, PDF pagination cursor logic, and column registry, translated
from the TypeScript source (src/App.tsx, src/unnamed/part_000,
src/unnamed/part_003, src/unnamed/part_004, src/components/ProfilePage.tsx).

JavaScript numbers are modelled by rationals (ℚ): the claims under study
are statements about the exact arithmetic the code performs, and the spec
itself treats floating-point only as a tolerance.  A value that may be
non-numeric (an item's `quantity` / `unitPrice` cell, which the code
coerces with `Number(x) || 0`) is modelled as `Option ℚ` with `none`
standing for a non-numeric value.
-/

/-- `Number(x) || 0`: a non-numeric (or NaN) cell coerces to 0. -/
def numOr0 : Option ℚ → ℚ
  | none => 0
  | some q => q

/-- A line item, as the pricing engine sees it: only the two load-bearing
keys `quantity` and `unitPrice` are read (src/App.tsx line 150). -/
structure Item where
  quantity : Option ℚ
  unitPrice : Option ℚ
deriving DecidableEq, Repr

/-- A named bucket of items (src/unnamed/part_004, `Subcategory`). -/
structure Subcategory where
  items : List Item
deriving DecidableEq, Repr

/-- `markupType ∈ {none, percentage, fixed}`. -/
inductive MarkupType where
  | none | percentage | fixed
deriving DecidableEq, Repr

/-- `markupDistribution ∈ {proportional, per-item}`. -/
inductive MarkupDist where
  | proportional | perItem
deriving DecidableEq, Repr

/-- A cost category (src/unnamed/part_004, `CostCategory`), restricted to
the fields the pricing engine reads. -/
structure CostCategory where
  subcategories : List Subcategory
  applyVat : Bool
  markupType : MarkupType
  markupValue : ℚ
  markupDistribution : MarkupDist
deriving DecidableEq, Repr

/-- The document fields the pricing engine reads (src/unnamed/part_004,
`DocumentState`). -/
structure DocumentState where
  categories : List CostCategory
  showVat : Bool
  vatRate : ℚ
deriving DecidableEq, Repr

/-- `Totals` (src/unnamed/part_004). -/
structure Totals where
  subtotal : ℚ
  tax : ℚ
  total : ℚ
deriving DecidableEq, Repr

/-- `(Number(item.quantity) || 0) * (Number(item.unitPrice) || 0)`
(src/App.tsx line 150, src/unnamed/part_000 line 244). -/
def itemSubtotal (it : Item) : ℚ :=
  numOr0 it.quantity * numOr0 it.unitPrice

/-- Sum of `itemSubtotal` over one subcategory. -/
def subcategorySubtotal (sub : Subcategory) : ℚ :=
  (sub.items.map itemSubtotal).sum

/-- `categoryRawSubtotal` (src/App.tsx lines 147-152): sum of
`quantity × unitPrice` over all items of all subcategories. -/
def categoryRawSubtotal (c : CostCategory) : ℚ :=
  (c.subcategories.map subcategorySubtotal).sum

/-- `categoryTotalWithMarkups` (src/App.tsx lines 155-161): the raw
subtotal, unchanged for `none`, plus `raw × markupValue/100` for
`percentage`, plus `markupValue` for `fixed`. -/
def categoryTotalWithMarkups (c : CostCategory) : ℚ :=
  match c.markupType with
  | .none => categoryRawSubtotal c
  | .percentage => categoryRawSubtotal c + categoryRawSubtotal c * (c.markupValue / 100)
  | .fixed => categoryRawSubtotal c + c.markupValue

/-- The per-category VAT contribution accumulated in `calculateTotals`
(src/App.tsx lines 164-166). -/
def categoryTaxContribution (doc : DocumentState) (c : CostCategory) : ℚ :=
  if doc.showVat && c.applyVat then categoryTotalWithMarkups c * (doc.vatRate / 100) else 0

/-- `calculateTotals` (src/App.tsx lines 141-177): a fold over the
categories accumulating `subtotalWithMarkups` and `tax`, returning
`{subtotal, tax, total = subtotal + tax}`. -/
def calculateTotals (doc : DocumentState) : Totals :=
  let acc := doc.categories.foldl
    (fun (acc : ℚ × ℚ) c =>
      (acc.1 + categoryTotalWithMarkups c, acc.2 + categoryTaxContribution doc c))
    (0, 0)
  ⟨acc.1, acc.2, acc.1 + acc.2⟩

/-! Spec-side restatements of the document-total algorithm, written from
the words of the specification (§4.1 steps 1-4) to be compared with
`calculateTotals`. -/

/-- Modelled from the spec: the category total-with-markup, worded as
`rawSubtotal × (1 + markupValue/100)` for percentage markups. -/
def specCategoryTotalWithMarkup (c : CostCategory) : ℚ :=
  match c.markupType with
  | .none => categoryRawSubtotal c
  | .percentage => categoryRawSubtotal c * (1 + c.markupValue / 100)
  | .fixed => categoryRawSubtotal c + c.markupValue

/-- Modelled from the spec: the per-category VAT,
`categoryTotalWithMarkup × vatRate/100` iff `showVat` and `applyVat`. -/
def specCategoryVat (doc : DocumentState) (c : CostCategory) : ℚ :=
  if doc.showVat && c.applyVat then specCategoryTotalWithMarkup c * (doc.vatRate / 100) else 0

/-- Modelled from the spec: document subtotal as the plain sum of category
totals-with-markup. -/
def specDocumentSubtotal (doc : DocumentState) : ℚ :=
  (doc.categories.map specCategoryTotalWithMarkup).sum

/-- Modelled from the spec: document tax as the plain sum of category VAT. -/
def specDocumentTax (doc : DocumentState) : ℚ :=
  (doc.categories.map (specCategoryVat doc)).sum

lemma specCategoryTotalWithMarkup_eq (c : CostCategory) :
    specCategoryTotalWithMarkup c = categoryTotalWithMarkups c := by
  cases h : c.markupType <;> simp [specCategoryTotalWithMarkup, categoryTotalWithMarkups, h]
  ring

lemma calculateTotals_foldl (doc : DocumentState) (l : List CostCategory) (a b : ℚ) :
    l.foldl (fun (acc : ℚ × ℚ) c =>
        (acc.1 + categoryTotalWithMarkups c, acc.2 + categoryTaxContribution doc c)) (a, b)
      = (a + (l.map categoryTotalWithMarkups).sum,
         b + (l.map (categoryTaxContribution doc)).sum) := by
  induction l generalizing a b with
  | nil => simp
  | cons c cs ih => simp [ih, add_assoc]

/-- C1. For every `DocumentState`, `calculateTotals` returns the sum over
categories of the markup-inclusive category total as the subtotal, the sum
of per-category VAT (gated on `showVat ∧ applyVat`) as the tax, and
`subtotal + tax` as the total — exactly the spec's accumulation. -/
theorem calculateTotals_correct (doc : DocumentState) :
    calculateTotals doc =
      ⟨specDocumentSubtotal doc, specDocumentTax doc,
       specDocumentSubtotal doc + specDocumentTax doc⟩ := by
  have hvat : ∀ c, specCategoryVat doc c = categoryTaxContribution doc c := by
    intro c
    simp [specCategoryVat, categoryTaxContribution, specCategoryTotalWithMarkup_eq]
  unfold calculateTotals specDocumentSubtotal specDocumentTax
  rw [calculateTotals_foldl]
  rw [funext specCategoryTotalWithMarkup_eq, funext hvat]
  simp

/-! ## Per-item attribution (DocumentPreview, src/unnamed/part_000 lines
240-268; the PDF exporter repeats the same formulas at src/App.tsx lines
537-561). -/

/-- Per-item markup attribution (src/unnamed/part_000 lines 249-256):
`itemSubtotal × markupValue/100` for percentage markups; for fixed markups
`itemSubtotal / rawSubtotal × markupValue`, guarded to 0 unless the
category's raw subtotal is positive; 0 otherwise. -/
def itemMarkup (c : CostCategory) (it : Item) : ℚ :=
  match c.markupType with
  | .percentage => itemSubtotal it * (c.markupValue / 100)
  | .fixed =>
      if categoryRawSubtotal c > 0
      then (itemSubtotal it / categoryRawSubtotal c) * c.markupValue
      else 0
  | .none => 0

/-- Per-item VAT (src/unnamed/part_000 line 267):
`(itemSubtotal + itemMarkup) × vatRate/100` under the same two-flag gate. -/
def itemVat (doc : DocumentState) (c : CostCategory) (it : Item) : ℚ :=
  if doc.showVat && c.applyVat
  then (itemSubtotal it + itemMarkup c it) * (doc.vatRate / 100)
  else 0

/-- Sum of the per-item markup attributions over all items of a category. -/
def categoryItemMarkupSum (c : CostCategory) : ℚ :=
  (c.subcategories.map (fun sub => (sub.items.map (itemMarkup c)).sum)).sum

lemma categoryItemMarkupSum_fixed (c : CostCategory) (hty : c.markupType = .fixed)
    (hpos : categoryRawSubtotal c > 0) :
    categoryItemMarkupSum c = c.markupValue := by
  have hexp : ∀ sub : Subcategory,
      (sub.items.map (itemMarkup c)).sum
        = subcategorySubtotal sub / categoryRawSubtotal c * c.markupValue := by
    intro sub
    unfold subcategorySubtotal
    induction sub.items with
    | nil => simp
    | cons it its ih =>
        simp only [List.map_cons, List.sum_cons, ih, itemMarkup, hty, if_pos hpos]
        ring
  unfold categoryItemMarkupSum
  rw [funext hexp]
  have : (c.subcategories.map
      (fun sub => subcategorySubtotal sub / categoryRawSubtotal c * c.markupValue)).sum
        = (c.subcategories.map subcategorySubtotal).sum / categoryRawSubtotal c
            * c.markupValue := by
    induction c.subcategories with
    | nil => simp
    | cons s ss ih => simp only [List.map_cons, List.sum_cons, ih]; ring
  rw [this]
  rw [show (c.subcategories.map subcategorySubtotal).sum = categoryRawSubtotal c from rfl]
  field_simp

/-- C2. For a category with `markupType = fixed`: each item's markup
attribution is `itemSubtotal / rawSubtotal × markupValue` when the raw
subtotal is positive and 0 for every item when it is 0 (the division is
guarded); and when the raw subtotal is positive the attributions summed
over all items equal the category's `markupValue`. -/
theorem fixedMarkup_attribution (c : CostCategory) (hty : c.markupType = .fixed) :
    (categoryRawSubtotal c > 0 →
        (∀ sub ∈ c.subcategories, ∀ it ∈ sub.items,
          itemMarkup c it = itemSubtotal it / categoryRawSubtotal c * c.markupValue)
        ∧ categoryItemMarkupSum c = c.markupValue)
    ∧ (categoryRawSubtotal c = 0 →
        ∀ sub ∈ c.subcategories, ∀ it ∈ sub.items, itemMarkup c it = 0) := by
  constructor
  · intro hpos
    refine ⟨?_, categoryItemMarkupSum_fixed c hty hpos⟩
    intro sub _ it _
    simp [itemMarkup, hty, if_pos hpos]
  · intro hzero _ _ it _
    simp [itemMarkup, hty, hzero]

/-- Witness for C2 at a concrete category: two items 2×10 and 1×5
(raw subtotal 25) with a fixed markup of 7. -/
theorem fixedMarkup_attribution_witness :
    let c : CostCategory :=
      { subcategories := [⟨[⟨some 2, some 10⟩, ⟨some 1, some 5⟩]⟩],
        applyVat := true, markupType := .fixed, markupValue := 7,
        markupDistribution := .proportional }
    (categoryRawSubtotal c > 0 →
        (∀ sub ∈ c.subcategories, ∀ it ∈ sub.items,
          itemMarkup c it = itemSubtotal it / categoryRawSubtotal c * c.markupValue)
        ∧ categoryItemMarkupSum c = c.markupValue)
    ∧ (categoryRawSubtotal c = 0 →
        ∀ sub ∈ c.subcategories, ∀ it ∈ sub.items, itemMarkup c it = 0) :=
  fixedMarkup_attribution _ (by decide)

/-! ## C3: the `markupDistribution` flag influences no computed figure. -/

/-- Two categories identical except (possibly) for `markupDistribution`. -/
def CostCategory.sameExceptDist (c₁ c₂ : CostCategory) : Prop :=
  c₁.subcategories = c₂.subcategories ∧ c₁.applyVat = c₂.applyVat
    ∧ c₁.markupType = c₂.markupType ∧ c₁.markupValue = c₂.markupValue

/-- Two documents identical except for the `markupDistribution` field of
zero or more categories. -/
def DocumentState.sameExceptDist (d₁ d₂ : DocumentState) : Prop :=
  List.Forall₂ CostCategory.sameExceptDist d₁.categories d₂.categories
    ∧ d₁.showVat = d₂.showVat ∧ d₁.vatRate = d₂.vatRate

lemma sameExceptDist_raw {c₁ c₂ : CostCategory} (h : c₁.sameExceptDist c₂) :
    categoryRawSubtotal c₁ = categoryRawSubtotal c₂ := by
  unfold categoryRawSubtotal
  rw [h.1]

lemma sameExceptDist_ctm {c₁ c₂ : CostCategory} (h : c₁.sameExceptDist c₂) :
    categoryTotalWithMarkups c₁ = categoryTotalWithMarkups c₂ := by
  unfold categoryTotalWithMarkups
  rw [h.2.2.1, h.2.2.2, sameExceptDist_raw h]

lemma sameExceptDist_itemMarkup {c₁ c₂ : CostCategory} (h : c₁.sameExceptDist c₂)
    (it : Item) : itemMarkup c₁ it = itemMarkup c₂ it := by
  unfold itemMarkup
  rw [h.2.2.1, h.2.2.2, sameExceptDist_raw h]

lemma forall₂_map_ctm {l₁ l₂ : List CostCategory}
    (h : List.Forall₂ CostCategory.sameExceptDist l₁ l₂) :
    l₁.map categoryTotalWithMarkups = l₂.map categoryTotalWithMarkups := by
  induction h with
  | nil => rfl
  | cons hc _ ih => simp [sameExceptDist_ctm hc, ih]

lemma forall₂_map_tax (d₁ d₂ : DocumentState) (hshow : d₁.showVat = d₂.showVat)
    (hrate : d₁.vatRate = d₂.vatRate) {l₁ l₂ : List CostCategory}
    (h : List.Forall₂ CostCategory.sameExceptDist l₁ l₂) :
    l₁.map (categoryTaxContribution d₁) = l₂.map (categoryTaxContribution d₂) := by
  induction h with
  | nil => rfl
  | cons hc _ ih =>
      simp only [List.map_cons, ih]
      unfold categoryTaxContribution
      rw [sameExceptDist_ctm hc, hc.2.1, hshow, hrate]

/-- C3. For any two `DocumentState`s identical except for the
`markupDistribution` of one or more categories, `calculateTotals` returns
equal `Totals`, and corresponding categories yield identical per-item
markup, per-item VAT and per-item total (display subtotal) for every item. -/
theorem markupDistribution_no_effect (d₁ d₂ : DocumentState)
    (h : d₁.sameExceptDist d₂) :
    calculateTotals d₁ = calculateTotals d₂
    ∧ List.Forall₂ (fun c₁ c₂ => ∀ it : Item,
        itemMarkup c₁ it = itemMarkup c₂ it
        ∧ itemVat d₁ c₁ it = itemVat d₂ c₂ it
        ∧ itemSubtotal it = itemSubtotal it) d₁.categories d₂.categories := by
  obtain ⟨hcats, hshow, hrate⟩ := h
  constructor
  · unfold calculateTotals
    rw [calculateTotals_foldl, calculateTotals_foldl]
    rw [forall₂_map_ctm hcats, forall₂_map_tax d₁ d₂ hshow hrate hcats]
  · refine hcats.imp ?_
    intro c₁ c₂ hc it
    refine ⟨sameExceptDist_itemMarkup hc it, ?_, rfl⟩
    unfold itemVat
    rw [sameExceptDist_itemMarkup hc it, hc.2.1, hshow, hrate]

/-- Witness for C3: a one-category document priced 3×4 with a 10%
percentage markup, under the two distribution modes. -/
theorem markupDistribution_no_effect_witness :
    let c₁ : CostCategory :=
      { subcategories := [⟨[⟨some 3, some 4⟩]⟩], applyVat := true,
        markupType := .percentage, markupValue := 10,
        markupDistribution := .proportional }
    let c₂ : CostCategory := { c₁ with markupDistribution := .perItem }
    let d₁ : DocumentState := ⟨[c₁], true, 16⟩
    let d₂ : DocumentState := ⟨[c₂], true, 16⟩
    calculateTotals d₁ = calculateTotals d₂
    ∧ List.Forall₂ (fun c₁ c₂ => ∀ it : Item,
        itemMarkup c₁ it = itemMarkup c₂ it
        ∧ itemVat d₁ c₁ it = itemVat d₂ c₂ it
        ∧ itemSubtotal it = itemSubtotal it) d₁.categories d₂.categories := by
  exact markupDistribution_no_effect _ _ ⟨by simp [CostCategory.sameExceptDist], rfl, rfl⟩


/-- `PaymentPlanConfig` (src/unnamed/part_004), restricted to the fields
`calculatePaymentOptions` reads.  Terms are the integer term lengths. -/
structure PaymentPlanConfig where
  enabled : Bool
  downPayment : ℚ
  terms : List ℤ
  baseInterestRate : ℚ
  riskFactor : ℚ
  termIncrementRate : ℚ
deriving DecidableEq, Repr

/-- One row of the computed payment plan. -/
structure PaymentOption where
  term : ℤ
  monthlyPayment : ℚ
  totalPayment : ℚ
deriving DecidableEq, Repr

/-- The effective annual rate for one term (src/unnamed/part_000 line 20):
`baseInterestRate + riskFactor + term × termIncrementRate / 12`. -/
def annualInterestRate (config : PaymentPlanConfig) (term : ℤ) : ℚ :=
  config.baseInterestRate + config.riskFactor + (term * config.termIncrementRate / 12)

/-- The body of the `terms.map(...)` arrow function (src/unnamed/part_000
lines 19-42): `null` for a 0 term, the `balance / term` row when the
monthly rate is 0, else the amortizing-loan row.
`Math.pow(1 + monthlyRate, term)` with an integer exponent is modelled by
`zpow` on ℚ. -/
def paymentOptionForTerm (balance : ℚ) (config : PaymentPlanConfig)
    (term : ℤ) : Option PaymentOption :=
  if term = 0 then none
  else if annualInterestRate config term / 100 / 12 = 0 then
    some ⟨term, balance / term, balance⟩
  else
    let monthlyRate := annualInterestRate config term / 100 / 12
    let monthlyPayment :=
      balance * (monthlyRate * (1 + monthlyRate) ^ term)
        / ((1 + monthlyRate) ^ term - 1)
    some ⟨term, monthlyPayment, monthlyPayment * term⟩

/-- `calculatePaymentOptions` (src/unnamed/part_000 lines 13-45).  The
source maps each term to a row-or-null and filters out the nulls, which is
`List.filterMap`; `balance = total - downPayment`. -/
def calculatePaymentOptions (total : ℚ) (config : PaymentPlanConfig) :
    List PaymentOption :=
  if ¬config.enabled ∨ config.terms = [] then []
  else if total - config.downPayment ≤ 0 then []
  else config.terms.filterMap (paymentOptionForTerm (total - config.downPayment) config)

/-- C4. `calculatePaymentOptions` returns `[]` when the plan is disabled,
when the term list is empty, or when `total − downPayment ≤ 0`; a term of
0 never appears in the output; every output row whose effective monthly
rate is 0 has `monthlyPayment = balance/term` and `totalPayment = balance`;
and the spec's concrete example: total 11000, down payment 1000, terms
[12], all rates 0 gives one row with monthly payment 10000/12 and total
payment 10000. -/
theorem calculatePaymentOptions_correct :
    (∀ total config, config.enabled = false →
        calculatePaymentOptions total config = [])
    ∧ (∀ total config, config.terms = [] →
        calculatePaymentOptions total config = [])
    ∧ (∀ total config, total - config.downPayment ≤ 0 →
        calculatePaymentOptions total config = [])
    ∧ (∀ total config opt, opt ∈ calculatePaymentOptions total config →
        opt.term ≠ 0)
    ∧ (∀ total config opt, opt ∈ calculatePaymentOptions total config →
        annualInterestRate config opt.term / 100 / 12 = 0 →
        opt.monthlyPayment = (total - config.downPayment) / opt.term
          ∧ opt.totalPayment = total - config.downPayment)
    ∧ calculatePaymentOptions 11000 ⟨true, 1000, [12], 0, 0, 0⟩
        = [⟨12, 10000 / 12, 10000⟩] := by
  have hcase : ∀ total config opt, opt ∈ calculatePaymentOptions total config →
      ∃ t : ℤ, t ≠ 0 ∧
        paymentOptionForTerm (total - config.downPayment) config t = some opt := by
    intro total config opt hmem
    unfold calculatePaymentOptions at hmem
    split at hmem
    · simp at hmem
    · split at hmem
      · simp at hmem
      · obtain ⟨t, _, hf⟩ := List.mem_filterMap.mp hmem
        refine ⟨t, ?_, hf⟩
        intro ht
        rw [ht] at hf
        simp [paymentOptionForTerm] at hf
  refine ⟨?_, ?_, ?_, ?_, ?_, ?_⟩
  · intro total config h
    simp [calculatePaymentOptions, h]
  · intro total config h
    simp [calculatePaymentOptions, h]
  · intro total config h
    simp [calculatePaymentOptions, h]
  · intro total config opt hmem
    obtain ⟨t, ht, hf⟩ := hcase total config opt hmem
    unfold paymentOptionForTerm at hf
    rw [if_neg ht] at hf
    split at hf <;>
      (simp only [Option.some.injEq] at hf; rw [← hf]; exact ht)
  · intro total config opt hmem hrate
    obtain ⟨t, ht, hf⟩ := hcase total config opt hmem
    unfold paymentOptionForTerm at hf
    rw [if_neg ht] at hf
    split at hf
    · simp only [Option.some.injEq] at hf
      rw [← hf]
      exact ⟨rfl, rfl⟩
    · rename_i hnz
      simp only [Option.some.injEq] at hf
      rw [← hf] at hrate
      simp only at hrate
      exact absurd hrate hnz
  · show calculatePaymentOptions 11000 ⟨true, 1000, [12], 0, 0, 0⟩ = _
    unfold calculatePaymentOptions paymentOptionForTerm annualInterestRate
    norm_num [List.filterMap_cons]

/-- Witness for C4's quantified conjuncts at concrete inputs: a disabled
plan, an empty term list, a fully covered balance, and the spec example. -/
theorem calculatePaymentOptions_witness :
    calculatePaymentOptions 500 ⟨false, 0, [6], 1, 1, 1⟩ = []
    ∧ calculatePaymentOptions 500 ⟨true, 0, [], 1, 1, 1⟩ = []
    ∧ calculatePaymentOptions 500 ⟨true, 600, [6], 1, 1, 1⟩ = []
    ∧ calculatePaymentOptions 11000 ⟨true, 1000, [12], 0, 0, 0⟩
        = [⟨12, 10000 / 12, 10000⟩] :=
  ⟨calculatePaymentOptions_correct.1 500 _ rfl,
   calculatePaymentOptions_correct.2.1 500 _ rfl,
   calculatePaymentOptions_correct.2.2.1 500 _ (by norm_num),
   calculatePaymentOptions_correct.2.2.2.2.2⟩

/-! ## PDF pagination cursor (src/App.tsx, `handleExportToPdf`).

The exporter keeps a vertical cursor `y` and a page counter; only this
cursor state decides page breaks, so the drawing side effects (footer,
`pdf.addPage()`, header redraw) are modelled by the cursor transitions
they perform: a break draws the footer, starts a page, increments `page`,
redraws the header (ending with `y = MARGIN + HEADER_HEIGHT`), then
redraws the category title, the subcategory title when shown, and the
column header (src/App.tsx lines 518-528). -/

/-- `MARGIN` (src/App.tsx line 265). -/
def pdfMargin : ℚ := 5

/-- `A4_HEIGHT` (src/App.tsx line 264). -/
def pdfA4Height : ℚ := 297

/-- `FOOTER_HEIGHT` (src/App.tsx line 267). -/
def pdfFooterHeight : ℚ := 15

/-- `HEADER_HEIGHT` (src/App.tsx line 268). -/
def pdfHeaderHeight : ℚ := 30

/-- `DRAW_HEIGHT = A4_HEIGHT - MARGIN*2 - FOOTER_HEIGHT` (line 269). -/
def pdfDrawHeight : ℚ := pdfA4Height - pdfMargin * 2 - pdfFooterHeight

/-- `cellLineHeight = 3.5` (src/App.tsx line 375). -/
def cellLineHeight : ℚ := 7 / 2

/-- `tableRowVerticalPadding = 4` (src/App.tsx line 373). -/
def tableRowVerticalPadding : ℚ := 4

/-- `tableHeaderHeight = 7` (src/App.tsx line 372). -/
def tableHeaderHeight : ℚ := 7

/-- `drawCategoryTitle` advances `y` by 10 (src/App.tsx line 426). -/
def categoryTitleHeight : ℚ := 10

/-- `drawSubcategoryTitle` advances `y` by 5 (src/App.tsx line 432). -/
def subcategoryTitleHeight : ℚ := 5

/-- The cursor state of an export run: vertical position and page count. -/
structure PdfCursor where
  y : ℚ
  page : ℕ
deriving DecidableEq, Repr

/-- `rowHeight = maxLines * cellLineHeight + tableRowVerticalPadding`
(src/App.tsx line 516), where `maxLines` starts at 1 and takes the largest
wrapped-line count over the visible columns (lines 509-515). -/
def rowHeight (maxLines : ℕ) : ℚ :=
  (max 1 maxLines : ℕ) * cellLineHeight + tableRowVerticalPadding

/-- The `y` position at which writing resumes after an in-table page
break: header redraw leaves `y = MARGIN + HEADER_HEIGHT` (line 332), then
the category title, the subcategory title when shown, and the column
header are redrawn (lines 523-527). -/
def rowRestartY (hasSubcategoryTitle : Bool) : ℚ :=
  pdfMargin + pdfHeaderHeight + categoryTitleHeight
    + (if hasSubcategoryTitle then subcategoryTitleHeight else 0)
    + tableHeaderHeight

/-- The per-item-row step of the export loop (src/App.tsx lines 516-573):
if `y + rowHeight` would pass `MARGIN + DRAW_HEIGHT`, break the page
(footer, new page, page counter, header and table-chrome redraw) and write
the row on the fresh page; otherwise write it at the current `y`.  Returns
the new cursor and the `y` at which the row was written. -/
def writeItemRow (hasSubcategoryTitle : Bool) (st : PdfCursor)
    (maxLines : ℕ) : PdfCursor × ℚ :=
  if st.y + rowHeight maxLines > pdfMargin + pdfDrawHeight then
    (⟨rowRestartY hasSubcategoryTitle + rowHeight maxLines, st.page + 1⟩,
     rowRestartY hasSubcategoryTitle)
  else
    (⟨st.y + rowHeight maxLines, st.page⟩, st.y)

/-- C5 counterexample: the claim's conclusion "no item row is ever written
past the boundary" fails for a row taller than a fresh page's content
area.  A row whose tallest cell wraps to 100 lines (height 354) starting
at `y = 200` triggers the break, yet on the fresh page it still ends at
57 + 354 = 411 > 277, past the bottom content boundary. -/
theorem writeItemRow_overflow_counterexample :
    (writeItemRow true ⟨200, 1⟩ 100).2 + rowHeight 100
        > pdfMargin + pdfDrawHeight
    ∧ (writeItemRow true ⟨200, 1⟩ 100).1.page = 2 := by
  norm_num [writeItemRow, rowHeight, rowRestartY, pdfMargin, pdfDrawHeight,
    pdfA4Height, pdfFooterHeight, pdfHeaderHeight, categoryTitleHeight,
    subcategoryTitleHeight, tableHeaderHeight, cellLineHeight,
    tableRowVerticalPadding]

/-- C5 (amended).  Before each item row, if `y + rowHeight` would exceed
the bottom content boundary (page height − margin − footer band), the
exporter breaks the page: the page counter is incremented and the row is
written at the fresh-page restart position (below the redrawn header,
category title, optional subcategory title and column header); otherwise
the row is written at the current `y` on the same page.  Consequently any
row that fits in a fresh page's content area is never written past the
boundary. -/
theorem writeItemRow_pagination (hasSub : Bool) (st : PdfCursor) (ml : ℕ)
    (hfit : rowHeight ml ≤ pdfMargin + pdfDrawHeight - rowRestartY hasSub) :
    (st.y + rowHeight ml > pdfMargin + pdfDrawHeight →
        (writeItemRow hasSub st ml).1.page = st.page + 1
        ∧ (writeItemRow hasSub st ml).2 = rowRestartY hasSub)
    ∧ (st.y + rowHeight ml ≤ pdfMargin + pdfDrawHeight →
        (writeItemRow hasSub st ml).1.page = st.page
        ∧ (writeItemRow hasSub st ml).2 = st.y)
    ∧ (writeItemRow hasSub st ml).2 + rowHeight ml ≤ pdfMargin + pdfDrawHeight := by
  unfold writeItemRow
  split
  · rename_i hbreak
    refine ⟨fun _ => ⟨rfl, rfl⟩, fun hle => absurd hbreak (not_lt.mpr hle), ?_⟩
    simpa using by linarith
  · rename_i hnobreak
    push_neg at hnobreak
    exact ⟨fun hgt => absurd hgt (not_lt.mpr hnobreak),
           fun _ => ⟨rfl, rfl⟩, by simpa using hnobreak⟩

/-- Witness for C5 (amended) at a concrete break: a 2-line row (height 11)
at `y = 270` breaks to page 2 and is written at 57, within bounds. -/
theorem writeItemRow_pagination_witness :
    (rowHeight 2 ≤ pdfMargin + pdfDrawHeight - rowRestartY true)
    ∧ (((270 : ℚ) + rowHeight 2 > pdfMargin + pdfDrawHeight →
        (writeItemRow true ⟨270, 1⟩ 2).1.page = 1 + 1
        ∧ (writeItemRow true ⟨270, 1⟩ 2).2 = rowRestartY true)
      ∧ ((270 : ℚ) + rowHeight 2 ≤ pdfMargin + pdfDrawHeight →
        (writeItemRow true ⟨270, 1⟩ 2).1.page = 1
        ∧ (writeItemRow true ⟨270, 1⟩ 2).2 = 270)
      ∧ (writeItemRow true ⟨270, 1⟩ 2).2 + rowHeight 2
          ≤ pdfMargin + pdfDrawHeight) := by
  constructor
  · norm_num [rowHeight, rowRestartY, pdfMargin, pdfDrawHeight, pdfA4Height,
      pdfFooterHeight, pdfHeaderHeight, categoryTitleHeight,
      subcategoryTitleHeight, tableHeaderHeight, cellLineHeight,
      tableRowVerticalPadding]
  · exact writeItemRow_pagination true ⟨270, 1⟩ 2 (by
      norm_num [rowHeight, rowRestartY, pdfMargin, pdfDrawHeight, pdfA4Height,
        pdfFooterHeight, pdfHeaderHeight, categoryTitleHeight,
        subcategoryTitleHeight, tableHeaderHeight, cellLineHeight,
        tableRowVerticalPadding])

/-! ## Folio generation (src/unnamed/part_004 lines 8-22).

`getJulianDate` computes `Math.floor((date - new Date(year, 0, 0)) / oneDay)`,
i.e. the number of whole days from midnight of Dec 31 of the previous year
to the date — in a UTC environment this is the ordinal day of year.  The
ECMAScript `Date` time value is modelled by a proleptic-Gregorian day
count `toDays` (days since year 0, Jan 1, at UTC midnight); differences of
`toDays` equal differences of `getTime()` in whole days. -/

/-- A calendar date at UTC midnight. -/
structure CalDate where
  year : ℕ
  month : ℕ
  day : ℕ
deriving DecidableEq, Repr

/-- Gregorian leap-year rule. -/
def isLeap (y : ℕ) : Bool :=
  (y % 4 == 0 && y % 100 != 0) || y % 400 == 0

/-- Length of a Gregorian year. -/
def daysInYear (y : ℕ) : ℕ := if isLeap y then 366 else 365

/-- Length of month `m` (1-based) of year `y`. -/
def daysInMonth (y m : ℕ) : ℕ :=
  match m with
  | 2 => if isLeap y then 29 else 28
  | 4 | 6 | 9 | 11 => 30
  | _ => 31

/-- Days of year `y` that precede month `m` (1-based). -/
def daysBeforeMonth (y m : ℕ) : ℕ :=
  ((List.range (m - 1)).map (fun i => daysInMonth y (i + 1))).sum

/-- Days before Jan 1 of year `y`, counted from year 0:
`365·y` plus the number of leap years among `0, …, y−1`
(`⌈y/4⌉ − ⌈y/100⌉ + ⌈y/400⌉` by the Gregorian rule). -/
def daysBeforeYear (y : ℕ) : ℕ :=
  365 * y + (y + 3) / 4 - (y + 99) / 100 + (y + 399) / 400

set_option maxHeartbeats 1000000 in
lemma daysBeforeYear_succ (y : ℕ) :
    daysBeforeYear (y + 1) = daysBeforeYear y + daysInYear y := by
  unfold daysBeforeYear daysInYear isLeap
  split
  · rename_i h
    simp only [Bool.or_eq_true, Bool.and_eq_true, beq_iff_eq, bne_iff_ne,
      ne_eq] at h
    omega
  · rename_i h
    simp only [Bool.or_eq_true, Bool.and_eq_true, beq_iff_eq, bne_iff_ne,
      ne_eq, not_or, not_and] at h
    omega

/-- Day number of a date (days since year 0, Jan 1): the model of the
`Date` time value divided by `oneDay`. -/
def toDays (d : CalDate) : ℕ :=
  daysBeforeYear d.year + daysBeforeMonth d.year d.month + (d.day - 1)

/-- The day-of-year computed by `getJulianDate` (src/unnamed/part_004
lines 8-16): whole days elapsed since Dec 31 of the previous year. -/
def julianDayOfYear (d : CalDate) : ℕ :=
  toDays d - toDays ⟨d.year - 1, 12, 31⟩

/-- `String.prototype.padStart(n, c)`. -/
def padStart (s : String) (n : ℕ) (c : Char) : String :=
  String.mk (List.replicate (n - s.length) c) ++ s

/-- `String.prototype.slice(-n)`: the last `n` characters. -/
def sliceLast (s : String) (n : ℕ) : String :=
  String.mk (s.data.drop (s.data.length - n))

/-- `getJulianDate` (src/unnamed/part_004 lines 8-16): last two digits of
the year followed by the 3-zero-padded day-of-year. -/
def getJulianDate (d : CalDate) : String :=
  sliceLast (toString d.year) 2 ++ padStart (toString (julianDayOfYear d)) 3 '0'

/-- `generateFolio` (src/unnamed/part_004 lines 18-22). -/
def generateFolio (pfx : String) (sequence : ℕ) (d : CalDate) : String :=
  pfx ++ padStart (toString sequence) 6 '0' ++ "-" ++ getJulianDate d

/-- Modelled from the spec: the ordinal day of year of a calendar date. -/
def specDayOfYear (d : CalDate) : ℕ :=
  daysBeforeMonth d.year d.month + d.day

lemma daysBeforeMonth_twelve (y : ℕ) :
    daysBeforeMonth y 12 = 334 + (if isLeap y then 1 else 0) := by
  unfold daysBeforeMonth
  (repeat rw [List.range_succ])
  simp [daysInMonth]
  cases isLeap y <;> simp

lemma julianDayOfYear_eq_specDayOfYear (d : CalDate) (hy : 1 ≤ d.year)
    (hd : 1 ≤ d.day) : julianDayOfYear d = specDayOfYear d := by
  obtain ⟨y, m, day⟩ := d
  cases y with
  | zero => simp at hy
  | succ k =>
      simp only [julianDayOfYear, specDayOfYear, toDays,
        Nat.add_sub_cancel] at *
      rw [daysBeforeMonth_twelve]
      show daysBeforeYear (k + 1) + _ + _ - _ = _
      rw [daysBeforeYear_succ]
      unfold daysInYear
      cases isLeap k <;> simp <;> omega

set_option maxRecDepth 16384 in
/-- C6.  `generateFolio` is the prefix, the sequence zero-padded to 6
digits, a hyphen, the last two digits of the year, and the 3-digit ordinal
day of year; in particular the spec's two concrete folios. -/
theorem generateFolio_correct (pfx : String) (sequence : ℕ) (d : CalDate)
    (hseq : 1 ≤ sequence) (hy : 1 ≤ d.year)
    (hm₁ : 1 ≤ d.month) (hm₂ : d.month ≤ 12)
    (hd₁ : 1 ≤ d.day) (hd₂ : d.day ≤ daysInMonth d.year d.month) :
    generateFolio pfx sequence d
      = pfx ++ padStart (toString sequence) 6 '0' ++ "-"
          ++ (sliceLast (toString d.year) 2
              ++ padStart (toString (specDayOfYear d)) 3 '0')
    ∧ generateFolio "COT-" 7 ⟨2024, 3, 5⟩ = "COT-000007-24065"
    ∧ generateFolio "X-" 1 ⟨2024, 1, 1⟩ = "X-000001-24001" := by
  refine ⟨?_, ?_, ?_⟩
  · unfold generateFolio getJulianDate
    rw [julianDayOfYear_eq_specDayOfYear d hy hd₁, String.append_assoc]
  · decide
  · decide

set_option maxRecDepth 16384 in
/-- Witness for C6 at the spec's first example date. -/
theorem generateFolio_witness :
    generateFolio "COT-" 7 ⟨2024, 3, 5⟩
      = "COT-" ++ padStart (toString 7) 6 '0' ++ "-"
          ++ (sliceLast (toString 2024) 2
              ++ padStart (toString (specDayOfYear ⟨2024, 3, 5⟩)) 3 '0')
    ∧ generateFolio "COT-" 7 ⟨2024, 3, 5⟩ = "COT-000007-24065" := by
  have h := generateFolio_correct "COT-" 7 ⟨2024, 3, 5⟩ (by decide) (by decide)
    (by decide) (by decide) (by decide) (by decide)
  exact ⟨h.1, h.2.1⟩

/-! ## Roman page numbers (`romanize`, src/App.tsx lines 276-286).

The source pops the decimal digit characters of `num` from the right and
indexes a 30-entry table (hundreds, tens, ones rows), prepends one `"M"`
per remaining thousands, and lowercases the result; popping base-10 digit
characters is digit arithmetic, so the loop is embedded as the `%`/`/`
digit decomposition below.  (`romanize(NaN) = ""` is unreachable here:
the only call site passes the page counter.)  JS `toLowerCase` is the
character-wise lowercase map. -/

/-- The `key` table of `romanize` (src/App.tsx lines 279-281). -/
def romKey : List String :=
  ["", "C", "CC", "CCC", "CD", "D", "DC", "DCC", "DCCC", "CM",
   "", "X", "XX", "XXX", "XL", "L", "LX", "LXX", "LXXX", "XC",
   "", "I", "II", "III", "IV", "V", "VI", "VII", "VIII", "IX"]

/-- `Array(k + 1).join(s)`: `s` repeated `k` times. -/
def strRep (s : String) (k : ℕ) : String := String.join (List.replicate k s)

/-- Character-wise `toLowerCase`. -/
def strToLower (s : String) : String := String.mk (s.data.map Char.toLower)

/-- `romanize` (src/App.tsx lines 276-286): thousands as repeated `M`,
then table rows for the hundreds, tens and ones digits, lowercased. -/
def romanize (n : ℕ) : String :=
  strToLower (strRep "M" (n / 1000)
    ++ romKey.getD ((n / 100) % 10) ""
    ++ romKey.getD (10 + (n / 10) % 10) ""
    ++ romKey.getD (20 + n % 10) "")

/-- Modelled from the spec: the standard greedy construction of the
lowercase Roman numeral. -/
def specRomanPairs : List (ℕ × String) :=
  [(1000, "m"), (900, "cm"), (500, "d"), (400, "cd"), (100, "c"), (90, "xc"),
   (50, "l"), (40, "xl"), (10, "x"), (9, "ix"), (5, "v"), (4, "iv"), (1, "i")]

/-- Modelled from the spec: emit each Roman token greedily, largest value
first. -/
def runPairs : List (ℕ × String) → ℕ → String
  | [], _ => ""
  | (v, s) :: rest, n => strRep s (n / v) ++ runPairs rest (n % v)

/-- Modelled from the spec: the correct lowercase Roman numeral. -/
def specRoman (n : ℕ) : String := runPairs specRomanPairs n

set_option maxRecDepth 100000 in
set_option maxHeartbeats 2000000 in
lemma romanize_chunk0 :
    ∀ r < 500, romanize (500 * 0 + r + 1) = specRoman (500 * 0 + r + 1) := by
  decide

set_option maxRecDepth 100000 in
set_option maxHeartbeats 2000000 in
lemma romanize_chunk1 :
    ∀ r < 500, romanize (500 * 1 + r + 1) = specRoman (500 * 1 + r + 1) := by
  decide

set_option maxRecDepth 100000 in
set_option maxHeartbeats 2000000 in
lemma romanize_chunk2 :
    ∀ r < 500, romanize (500 * 2 + r + 1) = specRoman (500 * 2 + r + 1) := by
  decide

set_option maxRecDepth 100000 in
set_option maxHeartbeats 2000000 in
lemma romanize_chunk3 :
    ∀ r < 500, romanize (500 * 3 + r + 1) = specRoman (500 * 3 + r + 1) := by
  decide

set_option maxRecDepth 100000 in
set_option maxHeartbeats 2000000 in
lemma romanize_chunk4 :
    ∀ r < 500, romanize (500 * 4 + r + 1) = specRoman (500 * 4 + r + 1) := by
  decide

set_option maxRecDepth 100000 in
set_option maxHeartbeats 2000000 in
lemma romanize_chunk5 :
    ∀ r < 500, romanize (500 * 5 + r + 1) = specRoman (500 * 5 + r + 1) := by
  decide

set_option maxRecDepth 100000 in
set_option maxHeartbeats 2000000 in
lemma romanize_chunk6 :
    ∀ r < 500, romanize (500 * 6 + r + 1) = specRoman (500 * 6 + r + 1) := by
  decide

set_option maxRecDepth 100000 in
set_option maxHeartbeats 2000000 in
lemma romanize_chunk7 :
    ∀ r < 500, romanize (500 * 7 + r + 1) = specRoman (500 * 7 + r + 1) := by
  decide

/-- C7.  For every `n` with `1 ≤ n ≤ 3999`, `romanize n` is the correct
lowercase Roman numeral; in particular `romanize 1 = "i"`,
`romanize 4 = "iv"` and `romanize 11 = "xi"`. -/
theorem romanize_correct :
    (∀ n : ℕ, 1 ≤ n → n ≤ 3999 → romanize n = specRoman n)
    ∧ romanize 1 = "i" ∧ romanize 4 = "iv" ∧ romanize 11 = "xi" := by
  have key : ∀ k < 8, ∀ r < 500,
      romanize (500 * k + r + 1) = specRoman (500 * k + r + 1) := by
    intro k hk
    interval_cases k
    · exact romanize_chunk0
    · exact romanize_chunk1
    · exact romanize_chunk2
    · exact romanize_chunk3
    · exact romanize_chunk4
    · exact romanize_chunk5
    · exact romanize_chunk6
    · exact romanize_chunk7
  refine ⟨?_, by decide, by decide, by decide⟩
  intro n h₁ h₂
  have hn : n = 500 * ((n - 1) / 500) + (n - 1) % 500 + 1 := by omega
  rw [hn]
  exact key _ (by omega) _ (by omega)

/-- Witness for C7 at `n = 4`. -/
theorem romanize_correct_witness :
    ((1 : ℕ) ≤ 4 ∧ (4 : ℕ) ≤ 3999) ∧ romanize 4 = specRoman 4 :=
  ⟨⟨by decide, by decide⟩, romanize_correct.1 4 (by decide) (by decide)⟩

/-! ## Column/Schema registry (src/unnamed/part_003 and the item-creation
loops of src/components/ProfilePage.tsx).

The registry is a JS object whose keys preserve insertion order; it is
modelled as an association list.  `newColumnDefinitions[key]` truthiness
is `lookup`-isSome. -/

/-- `ColumnDefinition.dataType` (src/unnamed/part_004 line 34). -/
inductive DataType where
  | string | number | date | time | boolean | image
deriving DecidableEq, Repr

/-- `ColumnDefinition.inputType` (src/unnamed/part_004 line 35). -/
inductive InputType where
  | text | textarea | number | select | date | time | checkbox | file
deriving DecidableEq, Repr

/-- `ColumnDefinition` (src/unnamed/part_004 lines 30-37). -/
structure ColumnDefinition where
  label : String
  default : Bool
  isEditable : Bool
  dataType : DataType
  inputType : InputType
  options : Option (List String)
deriving DecidableEq, Repr

/-- `COMPATIBLE_INPUT_TYPES` (src/unnamed/part_003 lines 106-113). -/
def COMPATIBLE_INPUT_TYPES : DataType → List InputType
  | .string => [.text, .textarea, .select]
  | .number => [.number, .select]
  | .date => [.date]
  | .time => [.time]
  | .boolean => [.checkbox]
  | .image => [.file]

/-- The per-entry update performed by `handleColumnDefinitionChange` with
`field = 'dataType'` (src/unnamed/part_003 lines 158-174): set the new
data type, and if the old input type is not in the new type's compatible
list, force the first compatible option. -/
def updateColumnDataType (key : String) (dt : DataType)
    (kv : String × ColumnDefinition) : String × ColumnDefinition :=
  if kv.1 = key then
    if (COMPATIBLE_INPUT_TYPES dt).contains kv.2.inputType then
      (kv.1, { kv.2 with dataType := dt })
    else
      (kv.1, { kv.2 with
                 dataType := dt
                 inputType := (COMPATIBLE_INPUT_TYPES dt).headD .text })
  else kv

/-- `handleColumnDefinitionChange` with `field = 'dataType'`: the registry
with the keyed entry updated. -/
def handleColumnDataTypeChange (defs : List (String × ColumnDefinition))
    (key : String) (dt : DataType) : List (String × ColumnDefinition) :=
  defs.map (updateColumnDataType key dt)

/-- JS object indexing `obj[key]` for the insertion-ordered registry. -/
def lookupKey {α : Type} (l : List (String × α)) (key : String) : Option α :=
  match l with
  | [] => none
  | kv :: rest => if kv.1 = key then some kv.2 else lookupKey rest key

/-- C8.  Changing a column's `dataType`: the stored definition gets the
new data type; a compatible current `inputType` is preserved; an
incompatible one becomes the first compatible option for the new data
type; in particular `boolean` always forces `checkbox`. -/
theorem columnDataTypeChange_correct (defs : List (String × ColumnDefinition))
    (key : String) (dt : DataType) (d : ColumnDefinition)
    (h : lookupKey defs key = some d) :
    ∃ d', lookupKey (handleColumnDataTypeChange defs key dt) key = some d'
      ∧ d'.dataType = dt
      ∧ ((COMPATIBLE_INPUT_TYPES dt).contains d.inputType = true →
          d'.inputType = d.inputType)
      ∧ ((COMPATIBLE_INPUT_TYPES dt).contains d.inputType = false →
          d'.inputType = (COMPATIBLE_INPUT_TYPES dt).headD .text)
      ∧ (dt = .boolean → d'.inputType = .checkbox) := by
  induction defs with
  | nil => simp [lookupKey] at h
  | cons kv rest ih =>
      simp only [handleColumnDataTypeChange, List.map_cons]
      by_cases hk : kv.1 = key
      · have hd : d = kv.2 := by
          rw [lookupKey, if_pos hk] at h
          exact (Option.some.inj h).symm
        subst hd
        rcases Bool.eq_false_or_eq_true
            ((COMPATIBLE_INPUT_TYPES dt).contains kv.2.inputType) with hc | hc
        · have hhead : updateColumnDataType key dt kv
              = (kv.1, { kv.2 with dataType := dt }) := by
            unfold updateColumnDataType
            rw [if_pos hk, if_pos hc]
          refine ⟨{ kv.2 with dataType := dt }, ?_, rfl, fun _ => rfl, ?_, ?_⟩
          · rw [hhead]
            simp [lookupKey, hk]
          · intro hcontra
            rw [hcontra] at hc
            cases hc
          · intro hb
            subst hb
            have hmem : kv.2.inputType ∈ COMPATIBLE_INPUT_TYPES .boolean :=
              List.mem_of_elem_eq_true hc
            simp only [COMPATIBLE_INPUT_TYPES, List.mem_singleton] at hmem
            simpa using hmem
        · have hhead : updateColumnDataType key dt kv
              = (kv.1, { kv.2 with
                           dataType := dt
                           inputType := (COMPATIBLE_INPUT_TYPES dt).headD .text }) := by
            unfold updateColumnDataType
            rw [if_pos hk, if_neg (by rw [hc]; exact Bool.false_ne_true)]
          refine ⟨{ kv.2 with
                      dataType := dt
                      inputType := (COMPATIBLE_INPUT_TYPES dt).headD .text },
                  ?_, rfl, ?_, fun _ => rfl, ?_⟩
          · rw [hhead]
            simp [lookupKey, hk]
          · intro hcontra
            rw [hcontra] at hc
            cases hc
          · intro hb
            subst hb
            rfl
      · rw [lookupKey, if_neg hk] at h
        obtain ⟨d', hd', rest'⟩ := ih h
        refine ⟨d', ?_, rest'⟩
        have hhead : updateColumnDataType key dt kv = kv := by
          unfold updateColumnDataType
          rw [if_neg hk]
        rw [hhead, lookupKey, if_neg hk]
        exact hd'

/-- Witness for C8: changing the number-typed `quantity` column to
`boolean` on a one-column registry. -/
theorem columnDataTypeChange_witness :
    let qdef : ColumnDefinition :=
      { label := "Cantidad", default := true, isEditable := true,
        dataType := .number, inputType := .number, options := some [] }
    ∃ d', lookupKey (handleColumnDataTypeChange [("quantity", qdef)] "quantity"
            .boolean) "quantity" = some d'
      ∧ d'.dataType = .boolean
      ∧ ((COMPATIBLE_INPUT_TYPES .boolean).contains qdef.inputType = true →
          d'.inputType = qdef.inputType)
      ∧ ((COMPATIBLE_INPUT_TYPES .boolean).contains qdef.inputType = false →
          d'.inputType = (COMPATIBLE_INPUT_TYPES .boolean).headD .text)
      ∧ (DataType.boolean = .boolean → d'.inputType = .checkbox) :=
  columnDataTypeChange_correct [("quantity", _)] "quantity" .boolean _ rfl

/-! ## Adding a column (`handleAddColumn`, src/unnamed/part_003 lines
280-308). -/

/-- `String.prototype.trim()`: strip leading and trailing whitespace. -/
def strTrim (s : String) : String :=
  String.mk (((s.data.dropWhile Char.isWhitespace).reverse.dropWhile
    Char.isWhitespace).reverse)

/-- One character of `/[^a-z0-9]/gi`-replacement: ASCII letters and digits
are kept, everything else becomes `'_'`. -/
def keyChar (c : Char) : Char :=
  if ('a' ≤ c ∧ c ≤ 'z') ∨ ('A' ≤ c ∧ c ≤ 'Z') ∨ ('0' ≤ c ∧ c ≤ '9')
  then c else '_'

/-- Modelled from the spec: the machine key derived from a label by
lowercasing it and replacing every non-alphanumeric character with `'_'`. -/
def specDeriveColumnKey (label : String) : String :=
  String.mk ((strToLower label).data.map keyChar)

/-- The key derivation of `handleAddColumn` (src/unnamed/part_003 line
285): `label.trim().toLowerCase().replace(/[^a-z0-9]/gi, '_')`. -/
def deriveColumnKey (label : String) : String :=
  String.mk ((strToLower (strTrim label)).data.map keyChar)

/-- The definition stored for a freshly created column (src/unnamed/
part_003 lines 293-303). -/
def newColumnDefinition (label : String) (dt : DataType) : ColumnDefinition :=
  { label := strTrim label
    default := false
    isEditable := true
    dataType := dt
    inputType := (COMPATIBLE_INPUT_TYPES dt).headD .text
    options := if dt = .string ∨ dt = .number then some [] else none }

/-- `handleAddColumn` (src/unnamed/part_003 lines 280-308): reject a blank
label; reject a derived-key collision; otherwise append the new definition
under the derived key. -/
def handleAddColumn (defs : List (String × ColumnDefinition))
    (label : String) (dt : DataType) : List (String × ColumnDefinition) :=
  if strTrim label = "" then defs
  else
    let newKey := deriveColumnKey label
    if (lookupKey defs newKey).isSome then defs
    else defs ++ [(newKey, newColumnDefinition label dt)]

/-- C9 counterexample: for the blank label `" "` the claim's derived key
is `"_"`, which is absent from the empty registry, so the claim predicts a
new definition is added — but `handleAddColumn` rejects blank labels and
leaves the registry unchanged (and empty). -/
theorem handleAddColumn_counterexample :
    specDeriveColumnKey " " = "_"
    ∧ lookupKey ([] : List (String × ColumnDefinition)) "_" = none
    ∧ handleAddColumn [] " " .string = []
    ∧ lookupKey (handleAddColumn [] " " .string) "_" = none := by
  refine ⟨by decide, rfl, ?_, ?_⟩ <;> rfl

/-- C9 (amended).  For a label that is non-blank after trimming:
the key is derived by trimming, lowercasing and replacing every
non-alphanumeric character with `'_'` (so the code key is the spec
derivation applied to the trimmed label); if the derived key already
exists the creation is rejected with the registry unchanged; otherwise
the new definition is appended under the derived key and every existing
entry is unchanged.  A blank label is rejected regardless. -/
theorem handleAddColumn_correct (defs : List (String × ColumnDefinition))
    (label : String) (dt : DataType) (hlabel : strTrim label ≠ "") :
    deriveColumnKey label = specDeriveColumnKey (strTrim label)
    ∧ ((lookupKey defs (deriveColumnKey label)).isSome = true →
        handleAddColumn defs label dt = defs)
    ∧ ((lookupKey defs (deriveColumnKey label)).isSome = false →
        handleAddColumn defs label dt
          = defs ++ [(deriveColumnKey label, newColumnDefinition label dt)])
    ∧ (∀ kv : String × ColumnDefinition, kv ∈ defs →
        kv ∈ handleAddColumn defs label dt) := by
  refine ⟨rfl, ?_, ?_, ?_⟩
  · intro hsome
    unfold handleAddColumn
    rw [if_neg hlabel, if_pos hsome]
  · intro hnone
    unfold handleAddColumn
    rw [if_neg hlabel, if_neg (by rw [hnone]; exact Bool.false_ne_true)]
  · intro kv hkv
    unfold handleAddColumn
    rw [if_neg hlabel]
    show kv ∈ if (lookupKey defs (deriveColumnKey label)).isSome = true
      then defs else defs ++ [(deriveColumnKey label, newColumnDefinition label dt)]
    split
    · exact hkv
    · exact List.mem_append_left _ hkv

/-- Witness for C9 (amended): adding "No. de Serie" to a one-column
registry derives the key `"no__de_serie"` and appends it. -/
theorem handleAddColumn_witness :
    let qdef : ColumnDefinition :=
      { label := "Cantidad", default := true, isEditable := true,
        dataType := .number, inputType := .number, options := some [] }
    strTrim "No. de Serie" ≠ ""
    ∧ (deriveColumnKey "No. de Serie"
          = specDeriveColumnKey (strTrim "No. de Serie")
      ∧ ((lookupKey [("quantity", qdef)]
            (deriveColumnKey "No. de Serie")).isSome = true →
          handleAddColumn [("quantity", qdef)] "No. de Serie" .string
            = [("quantity", qdef)])
      ∧ ((lookupKey [("quantity", qdef)]
            (deriveColumnKey "No. de Serie")).isSome = false →
          handleAddColumn [("quantity", qdef)] "No. de Serie" .string
            = [("quantity", qdef)]
              ++ [(deriveColumnKey "No. de Serie",
                   newColumnDefinition "No. de Serie" .string)])
      ∧ (∀ kv : String × ColumnDefinition, kv ∈ [("quantity", qdef)] →
          kv ∈ handleAddColumn [("quantity", qdef)] "No. de Serie" .string)) :=
  ⟨by decide, handleAddColumn_correct [("quantity", _)] "No. de Serie" .string
    (by decide)⟩

/-! ## New-item initialization (src/components/ProfilePage.tsx lines
1023-1050 `handleAddItems`; the identical per-column loop appears at lines
1160-1167 in `handleAddItemsFromImage`). -/

/-- A cell value stored on a freshly created item. -/
inductive ItemValue where
  | num (q : ℚ)
  | bool (b : Bool)
  | str (s : String)
deriving DecidableEq, Repr

/-- The initial value for one registry column (src/components/
ProfilePage.tsx lines 1029-1039): `quantity` is set to 1 first; then
number columns to 0, boolean columns to false, select-input columns to
their first option (empty string when there is none), all others to the
empty string. -/
def initialItemValue (key : String) (d : ColumnDefinition) : ItemValue :=
  if key = "quantity" then .num 1
  else if d.dataType = .number then .num 0
  else if d.dataType = .boolean then .bool false
  else if d.inputType = .select then .str ((d.options.getD []).headD "")
  else .str ""

/-- The key/value cells of a freshly created item, one per registry
column, in registry order. -/
def newItemValues (defs : List (String × ColumnDefinition)) :
    List (String × ItemValue) :=
  defs.map (fun kv => (kv.1, initialItemValue kv.1 kv.2))

/-- C10 counterexample: the claim says number-typed columns initialize to
0, but the `quantity` column — which has dataType `number` — is set to 1
by the branch checked before the dataType branches. -/
theorem newItemValues_counterexample :
    let qdef : ColumnDefinition :=
      { label := "Cantidad", default := true, isEditable := true,
        dataType := .number, inputType := .number, options := some [] }
    newItemValues [("quantity", qdef)] ≠ [("quantity", ItemValue.num 0)]
    ∧ newItemValues [("quantity", qdef)] = [("quantity", ItemValue.num 1)] := by
  refine ⟨?_, rfl⟩
  intro hcontra
  have : ItemValue.num 1 = ItemValue.num 0 := by
    simpa [newItemValues, initialItemValue] using hcontra
  simp at this

/-- C10 (amended).  A new item gets one cell per registry column, in
registry order: the `quantity` column is initialized to 1; any other
column of dataType `number` (a number-typed select column included) to 0;
`boolean` columns to false; remaining select-input columns to their first
option, or the empty string when the option list is absent or empty; all
other columns to the empty string. -/
theorem newItemValues_correct (defs : List (String × ColumnDefinition)) :
    (newItemValues defs).length = defs.length
    ∧ ∀ k d, (k, d) ∈ defs →
        (k = "quantity" → (k, ItemValue.num 1) ∈ newItemValues defs)
        ∧ (k ≠ "quantity" → d.dataType = .number →
            (k, ItemValue.num 0) ∈ newItemValues defs)
        ∧ (k ≠ "quantity" → d.dataType = .boolean →
            (k, ItemValue.bool false) ∈ newItemValues defs)
        ∧ (k ≠ "quantity" → d.dataType ≠ .number → d.dataType ≠ .boolean →
            d.inputType = .select →
            (k, ItemValue.str ((d.options.getD []).headD ""))
              ∈ newItemValues defs)
        ∧ (k ≠ "quantity" → d.dataType ≠ .number → d.dataType ≠ .boolean →
            d.inputType ≠ .select →
            (k, ItemValue.str "") ∈ newItemValues defs) := by
  constructor
  · simp [newItemValues]
  · intro k d hmem
    have hval : (k, initialItemValue k d) ∈ newItemValues defs := by
      have := List.mem_map_of_mem
        (fun kv : String × ColumnDefinition => (kv.1, initialItemValue kv.1 kv.2)) hmem
      simpa [newItemValues] using this
    refine ⟨?_, ?_, ?_, ?_, ?_⟩
    · intro hq
      simpa [initialItemValue, hq] using hval
    · intro hq hnum
      simpa [initialItemValue, hq, hnum] using hval
    · intro hq hbool
      have hnum : d.dataType ≠ .number := by
        rw [hbool]
        simp
      simpa [initialItemValue, hq, hnum, hbool] using hval
    · intro hq hnum hbool hsel
      simpa [initialItemValue, hq, hnum, hbool, hsel] using hval
    · intro hq hnum hbool hsel
      simpa [initialItemValue, hq, hnum, hbool, hsel] using hval

/-- A concrete `quantity` column used in witnesses. -/
def quantityColumn : ColumnDefinition :=
  { label := "Cantidad", default := true, isEditable := true,
    dataType := .number, inputType := .number, options := some [] }

/-- A concrete `description` column used in witnesses. -/
def descriptionColumn : ColumnDefinition :=
  { label := "Descripción", default := true, isEditable := true,
    dataType := .string, inputType := .textarea, options := none }

/-- Witness for C10 (amended) on a two-column registry: `quantity` gets 1
and the string-typed `description` gets the empty string. -/
theorem newItemValues_witness :
    ("quantity", quantityColumn)
        ∈ [("quantity", quantityColumn), ("description", descriptionColumn)]
    ∧ ("quantity", ItemValue.num 1)
        ∈ newItemValues [("quantity", quantityColumn),
                         ("description", descriptionColumn)]
    ∧ ("description", ItemValue.str "")
        ∈ newItemValues [("quantity", quantityColumn),
                         ("description", descriptionColumn)] := by
  refine ⟨by simp, ?_, ?_⟩
  · exact ((newItemValues_correct _).2 "quantity" quantityColumn (by simp)).1 rfl
  · exact ((newItemValues_correct _).2 "description" descriptionColumn
      (by simp)).2.2.2.2 (by decide) (by decide) (by decide) (by decide)
